import Mathlib

/-!
# Verification of MapLooper's `Loop` class (src/include/MapLooper/Loop.hpp)

A shallow embedding of the single-file live-looping track:

* the tick scheduler `Loop::update` (lines 128-151) as a step function on an
  explicit state record, with the diagnostic modelled as an `Option ℤ` result;
* the declarative feedback map expression installed by the constructor
  (lines 92-96) as a small expression AST plus a generic evaluator, transcribed
  from the string `del=_%x*_%x;%y=_%x*%x+(1-_%x)*y{-del,100}+_%x*(uniform(2.0)-1)`
  together with the argument binding order
  `(length, division, localReceive, record, localSend, record, modulation)`;
* the constructor's action sequence (lines 46-104) as an explicit trace;
* the destructor (lines 107-116) as the list of endpoints it frees;
* the late-binding graph callbacks `_mapFrom` / `_mapTo` (lines 168-202) as
  handler functions from an observed endpoint name to the list of connections
  they install.

Numeric signal values are modelled as rationals (the C++ code uses
`float`/`double`; the claims under study only involve exact small arithmetic
where the floating computations agree with the rational ones), and the
`(int)` conversion of `beats * division` is modelled as C++ truncation toward
zero on rationals.
-/

namespace MapLooper

/-- The nine endpoints a `Loop` creates, named after the member signals of
the C++ class. -/
inductive EndpointId where
  | sigRecord
  | sigLength
  | sigDivision
  | sigModulation
  | sigMute
  | sigIn
  | sigOut
  | sigLocalSend
  | sigLocalReceive
deriving DecidableEq, Repr, BEq

/-- The name suffix each endpoint is created with (`Loop::Loop`,
lines 46-89); the full name is `<trackName>/<suffix>`. -/
def endpointSuffix : EndpointId → String
  | .sigRecord => "control/record"
  | .sigLength => "control/length"
  | .sigDivision => "control/division"
  | .sigModulation => "control/modulation"
  | .sigMute => "control/mute"
  | .sigIn => "input"
  | .sigOut => "output"
  | .sigLocalSend => "local/send"
  | .sigLocalReceive => "local/recv"

/-- C++ `(int)` conversion of a real-valued expression: truncation toward
zero, i.e. T-division of the reduced fraction's numerator by its
denominator.  `Loop::update` line 131: `int now = beats * division;`. -/
def cppIntCast (q : ℚ) : ℤ := q.num.tdiv q.den

/-- The mutable state of a `Loop` that `Loop::update` reads and writes:
the current values of the signals it touches, and the `_lastUpdate` member
(line 216, initialised to 0).  Signal values are scalars; `sigMute` is an
`int32` signal in the code and is kept as an integer. -/
structure LoopState where
  sigDivision : ℚ
  sigMute : ℤ
  sigIn : ℚ
  sigOut : ℚ
  sigLocalSend : ℚ
  sigLocalReceive : ℚ
  lastUpdate : ℤ
deriving DecidableEq, Repr

/-- Lines 131-143 of `Loop::update`: derive the tick index, emit the
missed-ticks diagnostic when the jump exceeds one, and on any tick change
capture the input signal's value into `local/send` and store the new tick. -/
def tickStep (s : LoopState) (beats : ℚ) : LoopState × Option ℤ :=
  let division := s.sigDivision
  let now := cppIntCast (beats * division)
  if now ≠ s.lastUpdate then
    let diag := if now - s.lastUpdate > 1 then some (now - s.lastUpdate - 1) else none
    ({ s with sigLocalSend := s.sigIn, lastUpdate := now }, diag)
  else
    (s, none)

/-- Lines 146-150 of `Loop::update`: when the mute signal is zero, copy the
current `local/recv` value to the output signal; otherwise leave the output
untouched. -/
def muteStep (s : LoopState) : LoopState :=
  if s.sigMute ≠ 0 then s else { s with sigOut := s.sigLocalReceive }

/-- The function `Loop::update(double beats)` (lines 128-151): the tick step followed by
the mute-gated output copy.  The optional integer is the count printed by
the `"Missed %d ticks!"` diagnostic, `none` when it does not fire. -/
def update (s : LoopState) (beats : ℚ) : LoopState × Option ℤ :=
  let (s1, diag) := tickStep s beats
  (muteStep s1, diag)

/-- What the environment (remote peers, the bus, the host) may have written
to the loop's readable signals between two `update` calls, together with the
beat position passed to the call. -/
structure EnvWrite where
  division : ℚ
  mute : ℤ
  input : ℚ
  localRecv : ℚ
  beats : ℚ
deriving DecidableEq, Repr

/-- One host cycle: the environment's writes land on the signals, then
`update` runs with the given beat position. -/
def stepEnv (s : LoopState) (e : EnvWrite) : LoopState × Option ℤ :=
  update { s with
            sigDivision := e.division
            sigMute := e.mute
            sigIn := e.input
            sigLocalReceive := e.localRecv } e.beats

/-- Run a sequence of host cycles, collecting the diagnostics each call
emitted. -/
def runEnv (s : LoopState) (es : List EnvWrite) : LoopState × List (Option ℤ) :=
  match es with
  | [] => (s, [])
  | e :: rest =>
    let (s1, d) := stepEnv s e
    let (s2, ds) := runEnv s1 rest
    (s2, d :: ds)

/-- The signal state right after the constructor returns: every value signal
was set to `sigMin = 0`, mute to `muteMin = 0`, division to its operating
default 16 (line 104), and `_lastUpdate` carries its initialiser 0
(line 216). -/
def initialState : LoopState :=
  { sigDivision := 16
    sigMute := 0
    sigIn := 0
    sigOut := 0
    sigLocalSend := 0
    sigLocalReceive := 0
    lastUpdate := 0 }

/-! ## The feedback map expression

`Loop::Loop` lines 92-96 install one declarative map on the bus:

```
_loopMap = mpr_map_new_from_str(
    "del=_%x*_%x;%y=_%x*%x+(1-_%x)*y{-del,100}+_%x*(uniform(2.0)-1)",
    _sigLength, _sigDivision, _sigLocalReceive, _sigRecord, _sigLocalSend,
    _sigRecord, _sigModulation);
```

The format specifiers bind the varargs in order of appearance: the two `%x`
of the `del` assignment take `_sigLength` and `_sigDivision`; `%y` (the map
destination) takes `_sigLocalReceive`; the remaining `%x` take `_sigRecord`,
`_sigLocalSend`, `_sigRecord`, `_sigModulation`.  We transcribe the two
statements of the expression into an AST and evaluate it with a generic
evaluator; `y{-del,100}` is history access with declared capacity 100
(the lookback is clamped to the capacity), and `uniform(b)` is a random
draw whose sampled value the evaluator receives as an oracle `ℚ → ℚ`
indexed by the bound `b`. -/

/-- The source signals the map expression may reference. -/
inductive MapSig where
  | length
  | division
  | record
  | localSend
  | modulation
deriving DecidableEq, Repr

/-- Values of the map's source signals at one evaluation of the map. -/
structure MapEnv where
  length : ℚ
  division : ℚ
  record : ℚ
  localSend : ℚ
  modulation : ℚ

/-- Read one source signal from the environment. -/
def MapEnv.get (env : MapEnv) : MapSig → ℚ
  | .length => env.length
  | .division => env.division
  | .record => env.record
  | .localSend => env.localSend
  | .modulation => env.modulation

/-- Abstract syntax of the subset of the libmapper expression language used
by the loop map: constants, source-signal references, the local variable
`del`, clamped history access `y(-e, cap)`, arithmetic, and `uniform(b)`. -/
inductive MExpr where
  | const : ℚ → MExpr
  | sig : MapSig → MExpr
  | delVar : MExpr
  | histAccess : MExpr → ℚ → MExpr
  | addE : MExpr → MExpr → MExpr
  | subE : MExpr → MExpr → MExpr
  | mulE : MExpr → MExpr → MExpr
  | uniformE : ℚ → MExpr

/-- Evaluate an expression given the source-signal values, the value of the
local variable `del`, the history of the destination signal (`hist d` is the
destination's value `d` samples ago), and the oracle for `uniform` draws.
A history access `y(-e, cap)` reads the history at lookback `min e cap`:
the declared capacity bounds the lookback. -/
def evalExpr (env : MapEnv) (del : ℚ) (hist : ℚ → ℚ) (rnd : ℚ → ℚ) : MExpr → ℚ
  | .const c => c
  | .sig s => env.get s
  | .delVar => del
  | .histAccess e cap => hist (min (evalExpr env del hist rnd e) cap)
  | .addE a b => evalExpr env del hist rnd a + evalExpr env del hist rnd b
  | .subE a b => evalExpr env del hist rnd a - evalExpr env del hist rnd b
  | .mulE a b => evalExpr env del hist rnd a * evalExpr env del hist rnd b
  | .uniformE b => rnd b

/-- First statement of the map string, `del=_%x*_%x`, with the first two
varargs `_sigLength` and `_sigDivision` substituted. -/
def loopDelExpr : MExpr := .mulE (.sig .length) (.sig .division)

/-- Second statement of the map string,
`%y=_%x*%x+(1-_%x)*y(-del,100)+_%x*(uniform(2.0)-1)`, with the remaining
varargs `_sigRecord`, `_sigLocalSend`, `_sigRecord`, `_sigModulation`
substituted in order. -/
def loopOutExpr : MExpr :=
  .addE
    (.addE
      (.mulE (.sig .record) (.sig .localSend))
      (.mulE (.subE (.const 1) (.sig .record)) (.histAccess .delVar 100)))
    (.mulE (.sig .modulation) (.subE (.uniformE 2) (.const 1)))

/-- One evaluation of `_loopMap`: compute `del`, then the value published to
the destination `_sigLocalReceive`. -/
def evalLoopMap (env : MapEnv) (hist : ℚ → ℚ) (rnd : ℚ → ℚ) : ℚ :=
  let del := evalExpr env 0 hist rnd loopDelExpr
  evalExpr env del hist rnd loopOutExpr

/-! ## Constructor trace and destructor -/

/-- The bus-visible actions the constructor performs, in the order they can
matter to the claims: creating a signal, setting a signal's value, pushing
the loop map, and the poll-until-ready wait loop (lines 98-100). -/
inductive CAction where
  | createSig : EndpointId → CAction
  | setValue : EndpointId → ℚ → CAction
  | pushMap : CAction
  | pollUntilReady : CAction
deriving DecidableEq, Repr, BEq

/-- The constructor body (`Loop::Loop`, lines 46-104) as the sequence of its
bus actions: each signal creation followed by its `mpr_sig_set_value` when
the code performs one (record, modulation, mute, input, output, local/send
and local/recv are set to their minimum 0; length and division get no value
before the map), then the map push, the readiness wait, and finally the
deferred defaults `length = 1`, `division = 16` (lines 103-104). -/
def constructionTrace : List CAction :=
  [ .createSig .sigRecord, .setValue .sigRecord 0,
    .createSig .sigLength,
    .createSig .sigDivision,
    .createSig .sigModulation, .setValue .sigModulation 0,
    .createSig .sigMute, .setValue .sigMute 0,
    .createSig .sigIn, .setValue .sigIn 0,
    .createSig .sigOut, .setValue .sigOut 0,
    .createSig .sigLocalSend, .setValue .sigLocalSend 0,
    .createSig .sigLocalReceive, .setValue .sigLocalReceive 0,
    .pushMap, .pollUntilReady,
    .setValue .sigLength 1, .setValue .sigDivision 16 ]

/-- Does an action set the length or the division signal? -/
def setsLengthOrDivision : CAction → Bool
  | .setValue .sigLength _ => true
  | .setValue .sigDivision _ => true
  | _ => false

/-- The part of the construction trace before the readiness wait. -/
def preReadyTrace : List CAction :=
  constructionTrace.takeWhile (fun a => a != .pollUntilReady)

/-- The part of the construction trace after the readiness wait. -/
def postReadyTrace : List CAction :=
  (constructionTrace.dropWhile (fun a => a != .pollUntilReady)).drop 1

/-- The nine endpoints the constructor creates. -/
def createdEndpoints : List EndpointId :=
  [ .sigRecord, .sigLength, .sigDivision, .sigModulation, .sigMute,
    .sigIn, .sigOut, .sigLocalSend, .sigLocalReceive ]

/-- The endpoints the destructor `Loop::~Loop` (lines 107-116) frees, in
source order: record, length, modulation, division, input, output,
local/recv, local/send. -/
def freedEndpoints : List EndpointId :=
  [ .sigRecord, .sigLength, .sigModulation, .sigDivision,
    .sigIn, .sigOut, .sigLocalReceive, .sigLocalSend ]

/-- The endpoints still observable after construction followed by
destruction: created but never freed. -/
def remainingAfterDestroy : List EndpointId :=
  createdEndpoints.filter (fun e => !(freedEndpoints.contains e))

/-! ## Late binding (`Loop::_mapFrom` and `Loop::_mapTo`)

Both register a graph callback with `mpr_graph_add_cb` and never remove it.
The callback receives an observed signal object, reads its name, compares it
with `strcmp` against the requested peer name, and on equality pushes one
new map.  We model a callback as a function from the observed endpoint's
name to the list of connections it installs on that one event, and the
callback registry as a list of such functions that processing events never
changes. -/

/-- A directional connection between two named endpoints, as installed by
`mpr_map_new(1, &src, 1, &dst)`. -/
structure Conn where
  src : String
  dst : String
deriving DecidableEq, Repr

/-- The callback registered by `_mapFrom(srcName, &localSig)` (lines
168-184): on an observed signal whose name equals the requested peer name,
install one map from the observed peer to the local signal. -/
def mapFromHandler (srcName : String) (localDst : String) (observed : String) :
    List Conn :=
  if observed = srcName then [{ src := observed, dst := localDst }] else []

/-- The callback registered by `_mapTo(&localSig, dstName)` (lines 186-202):
on an observed signal whose name equals the requested peer name, install one
map from the local signal to the observed peer. -/
def mapToHandler (localSrc : String) (dstName : String) (observed : String) :
    List Conn :=
  if observed = dstName then [{ src := localSrc, dst := observed }] else []

/-- Deliver a sequence of signal-observation events to a fixed registry of
callbacks (the registry never changes: the code never calls a remove), and
collect every connection installed. -/
def processEvents (handlers : List (String → List Conn)) (events : List String) :
    List Conn :=
  (events.map (fun e => (handlers.map (fun h => h e)).flatten)).flatten

/-! ## Derived notions and concrete instances used in the theorems -/

/-- The tick index one host cycle derives: `(int)(beats * division)` with
the division value the environment wrote for that call. -/
def tickIndex (e : EnvWrite) : ℤ := cppIntCast (e.beats * e.division)

/-- The delay offset the specification's data-model section asserts:
`record * division`.  (This is the claim under test; the installed map
computes its delay from other signals.) -/
def claimDelay (env : MapEnv) : ℚ := env.record * env.division

/-- Map environment: `length = 1`, `division = 16` (the operating defaults
the constructor installs), `record = 0`, everything else 0. -/
def envPlayback : MapEnv :=
  { length := 1, division := 16, record := 0, localSend := 0, modulation := 0 }

/-- Map environment with `record = 0` and `modulation = 1`. -/
def envModulated : MapEnv :=
  { length := 1, division := 16, record := 0, localSend := 0, modulation := 1 }

/-- A history whose only nonzero sample sits at lookback 16. -/
def histSpike16 : ℚ → ℚ := fun d => if d = 16 then 5 else 0

/-- A history whose only nonzero sample sits at lookback 50. -/
def histSpike50 : ℚ → ℚ := fun d => if d = 50 then 9 else 0

/-- The all-zero history. -/
def histZero : ℚ → ℚ := fun _ => 0

/-- A deterministic draw for `uniform(b)`: always 1. -/
def rndOne : ℚ → ℚ := fun _ => 1

/-- A deterministic draw for `uniform(b)`: always 3/2 (inside `[0, 2)`). -/
def rndHigh : ℚ → ℚ := fun _ => 3 / 2

/-- A deterministic draw for `uniform(b)`: always 1/2 (inside `[0, 2)`). -/
def rndLow : ℚ → ℚ := fun _ => 1 / 2

/-- A loop state whose stored tick index is already 3, as left behind by
updates that advanced to tick 3 before a transport rewind. -/
def rewindState : LoopState :=
  { sigDivision := 16
    sigMute := 1
    sigIn := 5
    sigOut := 0
    sigLocalSend := 7
    sigLocalReceive := 0
    lastUpdate := 3 }

/-- One step of the spec's concrete scenario: division 16, unmuted, all
values 0, at beat position `b`. -/
def scenarioStep (b : ℚ) : EnvWrite :=
  { division := 16, mute := 0, input := 0, localRecv := 0, beats := b }

/-- The spec's concrete scenario: division 16 with beat positions
`[0.0, 0.05, 0.20]` (as exact rationals). -/
def scenarioSteps : List EnvWrite :=
  [scenarioStep 0, scenarioStep (1 / 20), scenarioStep (1 / 5)]

/-- A muted host cycle landing on tick 16 with visible input 9. -/
def muteOnEnv : EnvWrite :=
  { division := 16, mute := 1, input := 9, localRecv := 4, beats := 1 }

/-- A second muted host cycle landing on tick 32. -/
def muteOnEnv2 : EnvWrite :=
  { division := 16, mute := 1, input := 2, localRecv := 8, beats := 2 }

/-- An unmuted host cycle landing on tick 16. -/
def muteOffEnv : EnvWrite :=
  { division := 16, mute := 0, input := 9, localRecv := 4, beats := 1 }

/-- A host cycle whose derived tick is 0 (`beats * division = 1/2`). -/
def zeroTickEnv : EnvWrite :=
  { division := 16, mute := 0, input := 3, localRecv := 0, beats := 1 / 32 }

/-- A host cycle whose derived tick is 16. -/
def bigTickEnv : EnvWrite :=
  { division := 16, mute := 0, input := 6, localRecv := 0, beats := 1 }

/-! ## Helper lemmas -/

/-- Truncation toward zero is the ceiling on negatives and the floor elsewhere:
truncation toward zero. -/
theorem cppIntCast_eq (q : ℚ) : cppIntCast q = if q < 0 then ⌈q⌉ else ⌊q⌋ := by
  unfold cppIntCast
  split
  · rename_i hq
    have hnum : q.num < 0 := by
      by_contra hn
      push_neg at hn
      exact absurd (Rat.num_nonneg.mp hn) (not_le.mpr hq)
    have h1 : q.num.tdiv q.den = -((-q.num).tdiv q.den) := by
      rw [← Int.neg_tdiv, neg_neg]
    rw [h1, Int.tdiv_eq_ediv (by omega) (Int.ofNat_nonneg _)]
    have h2 : (-q.num) / (q.den : ℤ) = ⌊-q⌋ := by
      rw [Rat.floor_def]
      simp [Rat.neg_num, Rat.neg_den]
    rw [h2, Int.floor_neg, neg_neg]
  · rename_i hq
    push_neg at hq
    rw [Int.tdiv_eq_ediv (Rat.num_nonneg.mpr hq) (Int.ofNat_nonneg _), Rat.floor_def]

/-- Truncation toward zero agrees with the floor on nonnegative inputs. -/
theorem cppIntCast_eq_floor {q : ℚ} (h : 0 ≤ q) : cppIntCast q = ⌊q⌋ := by
  rw [cppIntCast_eq, if_neg (not_lt.mpr h)]

/-- Truncation toward zero is monotone. -/
theorem cppIntCast_mono {a b : ℚ} (h : a ≤ b) : cppIntCast a ≤ cppIntCast b := by
  rw [cppIntCast_eq, cppIntCast_eq]
  by_cases ha : a < 0 <;> by_cases hb : b < 0
  · rw [if_pos ha, if_pos hb]
    exact Int.ceil_le_ceil h
  · rw [if_pos ha, if_neg hb]
    have h1 : ⌈a⌉ ≤ 0 := Int.ceil_le.mpr (by exact_mod_cast ha.le)
    have h2 : 0 ≤ ⌊b⌋ := Int.floor_nonneg.mpr (not_lt.mp hb)
    omega
  · exact absurd (lt_of_le_of_lt h hb) ha
  · rw [if_neg ha, if_neg hb]
    exact Int.floor_le_floor h

/-- Value of `local/send` after one `update` call: the captured input when the tick
changed, unchanged otherwise. -/
theorem update_sigLocalSend (s : LoopState) (beats : ℚ) :
    (update s beats).1.sigLocalSend =
      if cppIntCast (beats * s.sigDivision) = s.lastUpdate then s.sigLocalSend
      else s.sigIn := by
  simp only [update, tickStep, muteStep]
  by_cases h : cppIntCast (beats * s.sigDivision) = s.lastUpdate <;>
    by_cases hm : s.sigMute = 0 <;>
    simp [h, hm]

/-- Value of `_lastUpdate` after one `update` call: set to the derived tick when it
changed, unchanged otherwise. -/
theorem update_lastUpdate (s : LoopState) (beats : ℚ) :
    (update s beats).1.lastUpdate =
      if cppIntCast (beats * s.sigDivision) = s.lastUpdate then s.lastUpdate
      else cppIntCast (beats * s.sigDivision) := by
  simp only [update, tickStep, muteStep]
  by_cases h : cppIntCast (beats * s.sigDivision) = s.lastUpdate <;>
    by_cases hm : s.sigMute = 0 <;>
    simp [h, hm]

/-- The diagnostic emitted by one `update` call: the missed count when the
tick jumped by more than one, `none` otherwise (a jump of exactly one, no
change, and a backward jump are all silent). -/
theorem update_diag (s : LoopState) (beats : ℚ) :
    (update s beats).2 =
      if cppIntCast (beats * s.sigDivision) - s.lastUpdate > 1 then
        some (cppIntCast (beats * s.sigDivision) - s.lastUpdate - 1)
      else none := by
  simp only [update, tickStep]
  by_cases h : cppIntCast (beats * s.sigDivision) = s.lastUpdate
  · rw [if_neg, if_neg]
    · omega
    · simp [h]
  · by_cases hj : cppIntCast (beats * s.sigDivision) - s.lastUpdate > 1 <;>
      simp [h, hj]

/-- Output signal after one host cycle: the freshly written `local/recv`
value when unmuted, the previous output when muted. -/
theorem stepEnv_sigOut (s : LoopState) (e : EnvWrite) :
    (stepEnv s e).1.sigOut = if e.mute = 0 then e.localRecv else s.sigOut := by
  simp only [stepEnv, update, tickStep, muteStep]
  by_cases h : cppIntCast (e.beats * e.division) = s.lastUpdate <;>
    by_cases hm : e.mute = 0 <;>
    simp [h, hm]

/-- Value of `local/send` after one host cycle: the captured input when the tick
changed, unchanged otherwise. -/
theorem stepEnv_sigLocalSend (s : LoopState) (e : EnvWrite) :
    (stepEnv s e).1.sigLocalSend =
      if tickIndex e = s.lastUpdate then s.sigLocalSend else e.input := by
  simp only [stepEnv, update, tickStep, muteStep, tickIndex]
  by_cases h : cppIntCast (e.beats * e.division) = s.lastUpdate <;>
    by_cases hm : e.mute = 0 <;>
    simp [h, hm]

/-- Stored tick index after one host cycle. -/
theorem stepEnv_lastUpdate (s : LoopState) (e : EnvWrite) :
    (stepEnv s e).1.lastUpdate =
      if tickIndex e = s.lastUpdate then s.lastUpdate else tickIndex e := by
  simp only [stepEnv, update, tickStep, muteStep, tickIndex]
  by_cases h : cppIntCast (e.beats * e.division) = s.lastUpdate <;>
    by_cases hm : e.mute = 0 <;>
    simp [h, hm]

/-- The diagnostic one host cycle emits: the missed count when the tick
jumped by more than one, `none` otherwise. -/
theorem stepEnv_diag (s : LoopState) (e : EnvWrite) :
    (stepEnv s e).2 =
      if tickIndex e - s.lastUpdate > 1 then some (tickIndex e - s.lastUpdate - 1)
      else none := by
  simp only [stepEnv, update, tickStep, muteStep, tickIndex]
  by_cases h : cppIntCast (e.beats * e.division) = s.lastUpdate
  · simp [h]
  · by_cases hj : cppIntCast (e.beats * e.division) - s.lastUpdate > 1 <;> simp [h, hj]

/-- While every cycle is muted, the output signal never changes. -/
theorem runEnv_sigOut_muted (s : LoopState) (es : List EnvWrite)
    (h : ∀ e ∈ es, e.mute ≠ 0) : (runEnv s es).1.sigOut = s.sigOut := by
  induction es generalizing s with
  | nil => rfl
  | cons e rest ih =>
    simp only [runEnv]
    have h1 : (stepEnv s e).1.sigOut = s.sigOut := by
      rw [stepEnv_sigOut, if_neg (h e (by simp))]
    rw [ih (stepEnv s e).1 (fun x hx => h x (by simp [hx]))]
    exact h1

/-- While every derived tick stays equal to the stored tick index 0,
nothing is captured, the stored index stays 0, and no diagnostic fires. -/
theorem runEnv_zero_ticks (s : LoopState) (es : List EnvWrite)
    (hs : s.lastUpdate = 0) (h : ∀ e ∈ es, tickIndex e = 0) :
    (runEnv s es).1.sigLocalSend = s.sigLocalSend ∧
    (runEnv s es).1.lastUpdate = 0 ∧
    ∀ d ∈ (runEnv s es).2, d = none := by
  induction es generalizing s with
  | nil => exact ⟨rfl, hs, by simp [runEnv]⟩
  | cons e rest ih =>
    have he : tickIndex e = s.lastUpdate := by rw [hs]; exact h e (by simp)
    have hsend : (stepEnv s e).1.sigLocalSend = s.sigLocalSend := by
      rw [stepEnv_sigLocalSend, if_pos he]
    have hlast : (stepEnv s e).1.lastUpdate = 0 := by
      rw [stepEnv_lastUpdate, if_pos he, hs]
    have hdiag : (stepEnv s e).2 = none := by
      rw [stepEnv_diag, if_neg]
      rw [he]
      omega
    have := ih (stepEnv s e).1 hlast (fun x hx => h x (by simp [hx]))
    simp only [runEnv]
    refine ⟨by rw [this.1, hsend], this.2.1, ?_⟩
    intro d hd
    simp only [List.mem_cons] at hd
    rcases hd with hd | hd
    · rw [hd]
      exact hdiag
    · exact this.2.2 d hd

/-- Processing an event stream splits over list append. -/
theorem processEvents_append (hs : List (String → List Conn))
    (as bs : List String) :
    processEvents hs (as ++ bs) = processEvents hs as ++ processEvents hs bs := by
  simp [processEvents]

/-- A stream of non-matching names installs nothing through a `_mapFrom`
callback. -/
theorem processEvents_mapFrom_miss (P dst : String) (pre : List String)
    (h : ∀ n ∈ pre, n ≠ P) :
    processEvents [mapFromHandler P dst] pre = [] := by
  induction pre with
  | nil => rfl
  | cons n rest ih =>
    simp only [processEvents, List.map_cons, List.flatten_cons] at ih ⊢
    rw [mapFromHandler, if_neg (h n (by simp))]
    simpa using ih (fun x hx => h x (by simp [hx]))

/-! ## Claim theorems -/

/-- C1, counterexample: the claim says the recirculation lookback is
`record * division`.  With `length = 1, division = 16, record = 0`, two
histories that agree at lookback `min (record * division) 100 = 0` still
produce different map outputs, so the lookback actually used is not
`record * division`. -/
theorem claimC1_counterexample :
    histSpike16 (min (claimDelay envPlayback) 100)
        = histZero (min (claimDelay envPlayback) 100) ∧
    evalLoopMap envPlayback histSpike16 rndOne
        ≠ evalLoopMap envPlayback histZero rndOne := by
  constructor
  · norm_num [claimDelay, envPlayback, histSpike16, histZero]
  · norm_num [evalLoopMap, evalExpr, loopDelExpr, loopOutExpr, MapEnv.get,
      envPlayback, histSpike16, histZero, rndOne]

/-- C1, amended: in the feedback map installed at construction, the history
lookback offset used by the recirculation term equals `length * division`
(clamped to the 100-sample history capacity), for every evaluation of the
map: the `del` statement evaluates to `length * division`, and the map's
output depends on the history only through its value at lookback
`min (length * division) 100`. -/
theorem loopMap_delay_is_length_mul_division :
    (∀ (env : MapEnv) (hist rnd : ℚ → ℚ),
        evalExpr env 0 hist rnd loopDelExpr = env.length * env.division) ∧
    (∀ (env : MapEnv) (h₁ h₂ rnd : ℚ → ℚ),
        h₁ (min (env.length * env.division) 100)
            = h₂ (min (env.length * env.division) 100) →
        evalLoopMap env h₁ rnd = evalLoopMap env h₂ rnd) := by
  constructor
  · intro env hist rnd
    rfl
  · intro env h₁ h₂ rnd h
    simp only [evalLoopMap, evalExpr, loopDelExpr, loopOutExpr, MapEnv.get]
    rw [h]

/-- C1, witness: the amended delay law applied with `length = 1`,
`division = 16` to two histories that agree at lookback 16. -/
theorem loopMap_delay_is_length_mul_division_witness :
    evalLoopMap envPlayback histSpike50 rndOne
        = evalLoopMap envPlayback histZero rndOne := by
  apply loopMap_delay_is_length_mul_division.2 envPlayback histSpike50 histZero rndOne
  norm_num [histSpike50, histZero, envPlayback]

/-- C2, counterexample: the claim says the noise term is gated by `record`,
so `record = 0` adds no noise.  With `record = 0, modulation = 1` and an
all-zero history, two different `uniform(2.0)` draws give different map
outputs: noise is added although `record = 0`. -/
theorem claimC2_counterexample :
    envModulated.record = 0 ∧
    evalLoopMap envModulated histZero rndHigh
        ≠ evalLoopMap envModulated histZero rndLow := by
  constructor
  · rfl
  · norm_num [evalLoopMap, evalExpr, loopDelExpr, loopOutExpr, MapEnv.get,
      envModulated, histZero, rndHigh, rndLow]

/-- C2, amended: every evaluation of the feedback map equals
`record * localSend + (1 - record) * history(min (length * division) 100)
+ modulation * (uniform(2.0) - 1)`: the additive noise term is scaled by
the modulation amount only, with no `record` factor. -/
theorem loopMap_noise_term (env : MapEnv) (hist rnd : ℚ → ℚ) :
    evalLoopMap env hist rnd =
      env.record * env.localSend
        + (1 - env.record) * hist (min (env.length * env.division) 100)
        + env.modulation * (rnd 2 - 1) := rfl

/-- C3, counterexample: the claim says a call whose derived tick is ≤ the
stored `lastTickIndex` performs no capture.  From a state with
`lastTickIndex = 3`, input 5 and `local/send` 7, the call `update(0)`
derives tick 0 ≤ 3 and nevertheless captures the input into `local/send`
(the code's guard is `now != _lastUpdate`, not `now > _lastUpdate`). -/
theorem claimC3_counterexample :
    cppIntCast ((0 : ℚ) * rewindState.sigDivision) ≤ rewindState.lastUpdate ∧
    rewindState.sigLocalSend = 7 ∧
    (update rewindState 0).1.sigLocalSend = 5 := by
  refine ⟨by norm_num [rewindState, cppIntCast_eq], rfl, ?_⟩
  rw [update_sigLocalSend, if_neg (by norm_num [rewindState, cppIntCast_eq])]
  rfl

/-- C3, amended: for every call to `update` whose derived tick index is ≤
the stored `lastTickIndex`, no missed-ticks diagnostic fires and
`lastTickIndex` is never advanced past the derived tick.  When the tick
equals `lastTickIndex` the call is a no-op (no capture, index unchanged);
when it is strictly smaller (transport rewind) the input IS captured to
`local/send` and `lastTickIndex` is moved back to the derived tick. -/
theorem update_rewind_behavior (s : LoopState) (beats : ℚ)
    (h : cppIntCast (beats * s.sigDivision) ≤ s.lastUpdate) :
    (update s beats).2 = none ∧
    (update s beats).1.lastUpdate ≤ s.lastUpdate ∧
    (cppIntCast (beats * s.sigDivision) = s.lastUpdate →
      (update s beats).1.sigLocalSend = s.sigLocalSend ∧
      (update s beats).1.lastUpdate = s.lastUpdate) ∧
    (cppIntCast (beats * s.sigDivision) < s.lastUpdate →
      (update s beats).1.sigLocalSend = s.sigIn ∧
      (update s beats).1.lastUpdate = cppIntCast (beats * s.sigDivision)) := by
  refine ⟨?_, ?_, ?_, ?_⟩
  · rw [update_diag, if_neg (by omega)]
  · rw [update_lastUpdate]
    split <;> omega
  · intro heq
    rw [update_sigLocalSend, if_pos heq, update_lastUpdate, if_pos heq]
    exact ⟨rfl, rfl⟩
  · intro hlt
    rw [update_sigLocalSend, if_neg (by omega), update_lastUpdate,
      if_neg (by omega)]
    exact ⟨rfl, rfl⟩

/-- C3, witness: the rewind call `update(0)` from `rewindState`
(`lastTickIndex = 3`): silent, index moved back to 0, input captured. -/
theorem update_rewind_behavior_witness :
    (update rewindState 0).2 = none ∧
    (update rewindState 0).1.sigLocalSend = 5 ∧
    (update rewindState 0).1.lastUpdate = 0 := by
  have h := update_rewind_behavior rewindState 0
    (by norm_num [rewindState, cppIntCast_eq])
  have hlt : cppIntCast ((0 : ℚ) * rewindState.sigDivision) < rewindState.lastUpdate := by
    norm_num [rewindState, cppIntCast_eq]
  refine ⟨h.1, ?_, ?_⟩
  · rw [(h.2.2.2 hlt).1]
    rfl
  · rw [(h.2.2.2 hlt).2]
    norm_num [rewindState, cppIntCast_eq]

/-- C4: the tick index is `(int)(beats * division)`, which equals
`floor(beats * division)` on the nonnegative domain; for a fixed
nonnegative division the tick is monotone in the beat position; a jump of
`k > 1` ticks yields exactly one diagnostic carrying `k - 1`; on every tick
change the input is captured to `local/send`; and the concrete scenario
(division 16, beats `[0, 0.05, 0.20]`) yields ticks `[0, 0, 3]`, the
diagnostic trace `[none, none, some 2]` and final stored tick 3. -/
theorem update_tick_derivation :
    (∀ (s : LoopState) (beats : ℚ), 0 ≤ beats → 0 ≤ s.sigDivision →
        cppIntCast (beats * s.sigDivision) = ⌊beats * s.sigDivision⌋) ∧
    (∀ (d b₁ b₂ : ℚ), 0 ≤ d → b₁ < b₂ →
        cppIntCast (b₁ * d) ≤ cppIntCast (b₂ * d)) ∧
    (∀ (s : LoopState) (beats : ℚ),
        cppIntCast (beats * s.sigDivision) - s.lastUpdate > 1 →
        (update s beats).2
          = some (cppIntCast (beats * s.sigDivision) - s.lastUpdate - 1)) ∧
    (∀ (s : LoopState) (beats : ℚ),
        cppIntCast (beats * s.sigDivision) ≠ s.lastUpdate →
        (update s beats).1.sigLocalSend = s.sigIn) ∧
    (tickIndex (scenarioStep 0) = 0 ∧
      tickIndex (scenarioStep (1 / 20)) = 0 ∧
      tickIndex (scenarioStep (1 / 5)) = 3) ∧
    (runEnv initialState scenarioSteps).2 = [none, none, some 2] ∧
    (runEnv initialState scenarioSteps).1.lastUpdate = 3 := by
  refine ⟨?_, ?_, ?_, ?_, ?_, ?_, ?_⟩
  · intro s beats hb hd
    exact cppIntCast_eq_floor (mul_nonneg hb hd)
  · intro d b₁ b₂ hd hb
    exact cppIntCast_mono (mul_le_mul_of_nonneg_right hb.le hd)
  · intro s beats h
    rw [update_diag, if_pos h]
  · intro s beats h
    rw [update_sigLocalSend, if_neg h]
  · refine ⟨?_, ?_, ?_⟩ <;> norm_num [tickIndex, scenarioStep, cppIntCast_eq]
  · norm_num [runEnv, stepEnv, update, tickStep, muteStep, initialState,
      scenarioSteps, scenarioStep, cppIntCast_eq]
  · norm_num [runEnv, stepEnv, update, tickStep, muteStep, initialState,
      scenarioSteps, scenarioStep, cppIntCast_eq]

/-- C4, witness: the universally quantified parts of the tick-derivation
law instantiated at concrete inputs (beat 1/5, division 16, fresh state). -/
theorem update_tick_derivation_witness :
    cppIntCast ((1 / 5 : ℚ) * initialState.sigDivision)
        = ⌊(1 / 5 : ℚ) * initialState.sigDivision⌋ ∧
    cppIntCast ((0 : ℚ) * 16) ≤ cppIntCast ((1 / 5 : ℚ) * 16) ∧
    (update initialState (1 / 5)).2
        = some (cppIntCast ((1 / 5 : ℚ) * initialState.sigDivision)
            - initialState.lastUpdate - 1) ∧
    (update initialState (1 / 5)).1.sigLocalSend = initialState.sigIn := by
  refine ⟨update_tick_derivation.1 initialState (1 / 5) (by norm_num)
      (by norm_num [initialState]),
    update_tick_derivation.2.1 16 0 (1 / 5) (by norm_num) (by norm_num),
    update_tick_derivation.2.2.1 initialState (1 / 5)
      (by norm_num [initialState, cppIntCast_eq]),
    update_tick_derivation.2.2.2.1 initialState (1 / 5)
      (by norm_num [initialState, cppIntCast_eq])⟩

/-- C5: across any sequence of host cycles that are all muted, the output
signal is unchanged no matter what the environment writes to input,
division, `local/recv` or the beat position; a tick-boundary capture to
`local/send` still happens on every tick change regardless of mute; and
every unmuted call copies the current `local/recv` value to the output. -/
theorem update_mute_gate :
    (∀ (s : LoopState) (es : List EnvWrite), (∀ e ∈ es, e.mute ≠ 0) →
        (runEnv s es).1.sigOut = s.sigOut) ∧
    (∀ (s : LoopState) (e : EnvWrite), tickIndex e ≠ s.lastUpdate →
        (stepEnv s e).1.sigLocalSend = e.input) ∧
    (∀ (s : LoopState) (e : EnvWrite), e.mute = 0 →
        (stepEnv s e).1.sigOut = e.localRecv) := by
  refine ⟨runEnv_sigOut_muted, ?_, ?_⟩
  · intro s e h
    rw [stepEnv_sigLocalSend, if_neg h]
  · intro s e h
    rw [stepEnv_sigOut, if_pos h]

/-- C5, witness: two muted cycles (with changing input, `local/recv` and
beats) leave the output at its initial value, the first muted cycle still
captures its input 9 to `local/send`, and an unmuted cycle copies
`local/recv` (4) to the output. -/
theorem update_mute_gate_witness :
    (runEnv initialState [muteOnEnv, muteOnEnv2]).1.sigOut
        = initialState.sigOut ∧
    (stepEnv initialState muteOnEnv).1.sigLocalSend = muteOnEnv.input ∧
    (stepEnv initialState muteOffEnv).1.sigOut = muteOffEnv.localRecv := by
  refine ⟨update_mute_gate.1 initialState [muteOnEnv, muteOnEnv2] ?_,
    update_mute_gate.2.1 initialState muteOnEnv
      (by norm_num [tickIndex, muteOnEnv, initialState, cppIntCast_eq]),
    update_mute_gate.2.2 initialState muteOffEnv rfl⟩
  intro e he
  rcases List.mem_cons.mp he with rfl | he
  · decide
  rcases List.mem_cons.mp he with rfl | he
  · decide
  exact absurd he (List.not_mem_nil e)

/-- C6: the destructor frees only eight of the nine endpoints the
constructor created — `control/mute` is never freed and remains observable
after construction followed by destruction, contradicting the claim that
all nine are released. -/
theorem destructor_misses_mute :
    remainingAfterDestroy = [EndpointId.sigMute] ∧
    endpointSuffix EndpointId.sigMute = "control/mute" :=
  ⟨by decide, rfl⟩

/-- C7: in the constructor's action trace, record, modulation and mute are
published with value 0 before the readiness wait; no action before the
readiness wait sets length or division; the map push precedes the wait; and
the only actions after the wait are setting the operating defaults
`length = 1` and `division = 16`, in that order. -/
theorem construction_trace_order :
    preReadyTrace.contains (CAction.setValue .sigRecord 0) = true ∧
    preReadyTrace.contains (CAction.setValue .sigModulation 0) = true ∧
    preReadyTrace.contains (CAction.setValue .sigMute 0) = true ∧
    preReadyTrace.all (fun a => !setsLengthOrDivision a) = true ∧
    preReadyTrace.contains CAction.pushMap = true ∧
    constructionTrace.contains CAction.pollUntilReady = true ∧
    postReadyTrace
      = [CAction.setValue .sigLength 1, CAction.setValue .sigDivision 16] := by
  refine ⟨?_, ?_, ?_, ?_, ?_, ?_, ?_⟩ <;> decide

/-- C8: a binding request for peer name `P` registered before `P` exists
installs exactly one connection the first time an observed endpoint's name
equals `P` (string equality): a `_mapFrom` request installs peer→local, a
`_mapTo` request installs local→peer, an event whose name differs from `P`
installs nothing, and a single observation event installs at most one
connection. -/
theorem lateBinder_first_match :
    (∀ (P dst : String) (pre : List String), (∀ n ∈ pre, n ≠ P) →
        processEvents [mapFromHandler P dst] (pre ++ [P])
          = [{ src := P, dst := dst }]) ∧
    (∀ (P dst n : String), n ≠ P → mapFromHandler P dst n = []) ∧
    (∀ (P dst n : String), (mapFromHandler P dst n).length ≤ 1) ∧
    (∀ (localSrc P : String),
        mapToHandler localSrc P P = [{ src := localSrc, dst := P }]) ∧
    (∀ (localSrc P n : String), n ≠ P → mapToHandler localSrc P n = []) ∧
    (∀ (localSrc P n : String), (mapToHandler localSrc P n).length ≤ 1) := by
  refine ⟨?_, ?_, ?_, ?_, ?_, ?_⟩
  · intro P dst pre h
    rw [processEvents_append, processEvents_mapFrom_miss P dst pre h]
    simp [processEvents, mapFromHandler]
  · intro P dst n h
    simp [mapFromHandler, h]
  · intro P dst n
    unfold mapFromHandler
    split <;> simp
  · intro localSrc P
    simp [mapToHandler]
  · intro localSrc P n h
    simp [mapToHandler, h]
  · intro localSrc P n
    unfold mapToHandler
    split <;> simp

/-- C8, witness: a `_mapFrom` request for `peer/out` pending across two
non-matching events completes with exactly the peer→local connection on the
first matching event; non-matching events install nothing on either kind of
request. -/
theorem lateBinder_first_match_witness :
    processEvents [mapFromHandler "peer/out" "track/control/record"]
        (["alpha", "beta"] ++ ["peer/out"])
      = [{ src := "peer/out", dst := "track/control/record" }] ∧
    mapFromHandler "peer/out" "track/control/record" "alpha" = [] ∧
    mapToHandler "track/output" "peer/in" "alpha" = [] := by
  refine ⟨lateBinder_first_match.1 "peer/out" "track/control/record"
      ["alpha", "beta"] ?_,
    lateBinder_first_match.2.1 "peer/out" "track/control/record" "alpha"
      (by decide),
    lateBinder_first_match.2.2.2.2.1 "track/output" "peer/in" "alpha"
      (by decide)⟩
  intro n hn
  rcases List.mem_cons.mp hn with rfl | hn
  · decide
  rcases List.mem_cons.mp hn with rfl | hn
  · decide
  exact absurd hn (List.not_mem_nil n)

/-- C9: after a request has matched, its callback stays registered (the
code never removes it), so a second observation event carrying the same
name installs a second, duplicate connection. -/
theorem lateBinder_refires (P dst e₁ e₂ : String) (h₁ : e₁ = P)
    (h₂ : e₂ = P) :
    processEvents [mapFromHandler P dst] [e₁, e₂]
      = [{ src := P, dst := dst }, { src := P, dst := dst }] := by
  subst h₁
  subst h₂
  simp [processEvents, mapFromHandler]

/-- C9, witness: two events named `peer/out` produce two identical
connections through the one registered request. -/
theorem lateBinder_refires_witness :
    processEvents [mapFromHandler "peer/out" "track/input"]
        ["peer/out", "peer/out"]
      = [{ src := "peer/out", dst := "track/input" },
         { src := "peer/out", dst := "track/input" }] :=
  lateBinder_refires "peer/out" "track/input" "peer/out" "peer/out" rfl rfl

/-- C10: a fresh track stores tick index 0; any run of host cycles whose
derived ticks are all 0 captures nothing to `local/send`, keeps the stored
index at 0 and emits no diagnostic; the first cycle whose derived tick
differs from 0 captures its input. -/
theorem fresh_track_tick_zero :
    initialState.lastUpdate = 0 ∧
    (∀ es : List EnvWrite, (∀ e ∈ es, tickIndex e = 0) →
        (runEnv initialState es).1.sigLocalSend = initialState.sigLocalSend ∧
        (runEnv initialState es).1.lastUpdate = 0 ∧
        ∀ d ∈ (runEnv initialState es).2, d = none) ∧
    (∀ (es : List EnvWrite) (e : EnvWrite), (∀ x ∈ es, tickIndex x = 0) →
        tickIndex e ≠ 0 →
        (stepEnv (runEnv initialState es).1 e).1.sigLocalSend = e.input) := by
  refine ⟨rfl, fun es h => runEnv_zero_ticks initialState es rfl h, ?_⟩
  intro es e hes he
  have hlast : (runEnv initialState es).1.lastUpdate = 0 :=
    (runEnv_zero_ticks initialState es rfl hes).2.1
  rw [stepEnv_sigLocalSend, if_neg]
  rw [hlast]
  exact he

/-- C10, witness: one cycle at beat 1/32 (tick 0) captures nothing, and the
following cycle at beat 1 (tick 16) captures its input 6. -/
theorem fresh_track_tick_zero_witness :
    (runEnv initialState [zeroTickEnv]).1.sigLocalSend
        = initialState.sigLocalSend ∧
    (stepEnv (runEnv initialState [zeroTickEnv]).1 bigTickEnv).1.sigLocalSend
        = bigTickEnv.input := by
  have hz : ∀ e ∈ [zeroTickEnv], tickIndex e = 0 := by
    intro e he
    rcases List.mem_cons.mp he with rfl | he
    · norm_num [tickIndex, zeroTickEnv, cppIntCast_eq]
    exact absurd he (List.not_mem_nil e)
  exact ⟨(fresh_track_tick_zero.2.1 [zeroTickEnv] hz).1,
    fresh_track_tick_zero.2.2 [zeroTickEnv] bigTickEnv hz
      (by norm_num [tickIndex, bigTickEnv, cppIntCast_eq])⟩

end MapLooper
